import Mathlib

/-!
Shallow embedding of the lazysql session controller (src/main.go) and the
parts of its widget collaborators whose observable contract the controller
relies on (current text, focus state, current selection).

Conventions of the embedding:
* `pgx.Conn` handles are modelled as `Nat`; a nullable handle is `Option Nat`.
* Go errors are modelled as `String`; the `err` field of the model is
  `Option String` (`none` = nil).
* A Go slice index out of range is a runtime panic; every function on a path
  that can panic returns `Option`, with `none` denoting the panic.
* The two synchronous database calls made inside `Model.Update` /
  `initDataTable` (`db.ConnectAsUser` at main.go:327 and `db.GetTableColumns`
  at main.go:600) are modelled by an environment `Env` of oracles supplying
  their results.
* `map[string]interface{}` values are modelled as association lists
  `List (String × String)` (cell values abstracted to strings); no claim
  inspects the Go map iteration order.
-/

namespace LazySql

/-- The `State` enumeration of main.go (lines 21-35). -/
inductive State where
  | StateLoading
  | StateSelectUser
  | StateSelectDatabase
  | StateEnterPassword
  | StateConnecting
  | StateListTables
  | StateCreateTableName
  | StateCreateTableSchema
  | StateViewTable
  | StateAddRow
  | StateError
deriving DecidableEq, Repr

/-- Key events, identified the way Go sees them through `tea.KeyMsg.String()`:
a rune key stringifies to its character, special keys to their names. -/
inductive Key where
  | char (c : Char)
  | enter
  | esc
  | tab
  | shiftTab
  | ctrlC
  | up
  | down
deriving DecidableEq, Repr

/-- The `msg.String()` value used by the switches in `Model.Update`. -/
def Key.toString : Key → String
  | .char c => String.singleton c
  | .enter => "enter"
  | .esc => "esc"
  | .tab => "tab"
  | .shiftTab => "shift+tab"
  | .ctrlC => "ctrl+c"
  | .up => "up"
  | .down => "down"

/-- One table row, abstracting Go `map[string]interface{}` as an
association list with string values. -/
def Row : Type := List (String × String)
deriving DecidableEq, Repr

/-- The tagged message types of main.go lines 70-80, carrying their payloads. -/
inductive Msg where
  | postgresFound
  | postgresNotFound
  | users (users : List String)
  | databases (databases : List String)
  | connected (conn : Nat)
  | tables (tables : List String)
  | tableCreated
  | tableData (data : List Row)
  | tableColumns (columns : List String)
  | rowInserted
  | errMsg (err : String)
deriving DecidableEq, Repr

/-- An inbound event: either a key press or a dispatcher message. -/
inductive Event where
  | key (k : Key)
  | msg (m : Msg)
deriving DecidableEq, Repr

/-- Deferred commands issued by `Model.Update` (the `tea.Cmd` producers of
main.go lines 187-274, plus `tea.Quit`). Each carries exactly the arguments
the Go closure captures. -/
inductive Cmd where
  | checkDbInstalled
  | fetchUsers (conn : Nat)
  | fetchDatabases (conn : Option Nat)
  | connectAsUser (user password database : String)
  | fetchTables (conn : Option Nat)
  | createTable (conn : Option Nat) (tableName schema : String)
  | fetchTableData (conn : Option Nat) (tableName : String)
  | fetchTableColumns (conn : Option Nat) (tableName : String)
  | insertRow (conn : Option Nat) (tableName : String) (values : List (String × String))
  | quit
deriving DecidableEq, Repr

/-- Observable contract of a `textinput.Model`: current text, focus state
and the character limit (`0` = unlimited). A rune key is appended to the
text only while the input is focused and within the limit; every other
event leaves the input unchanged. -/
structure TextInput where
  value : String
  focused : Bool
  charLimit : Nat
deriving DecidableEq, Repr

def TextInput.update (t : TextInput) (e : Event) : TextInput :=
  match e with
  | .key (.char c) =>
      if t.focused && (t.charLimit == 0 || t.value.length < t.charLimit) then
        { t with value := t.value.push c }
      else t
  | _ => t

/-- Observable contract of a `list.Model`: its items (titles) and the cursor
index. Arrow keys move the cursor (clamped); other events leave it alone. -/
structure ListW where
  items : List String
  index : Nat
deriving DecidableEq, Repr

def ListW.update (l : ListW) (e : Event) : ListW :=
  match e with
  | .key .up => { l with index := l.index - 1 }
  | .key .down => { l with index := if l.index + 1 < l.items.length then l.index + 1 else l.index }
  | _ => l

/-- `list.Model.SetItems`. -/
def ListW.setItems (l : ListW) (items : List String) : ListW :=
  { l with items := items }

/-- `list.Model.SelectedItem`: `none` when the cursor is out of range. -/
def ListW.selectedItem (l : ListW) : Option String :=
  l.items.get? l.index

/-- Observable contract of the `table.Model`: the displayed columns and rows. -/
structure DataTable where
  cols : List String
  rows : List (List String)
deriving DecidableEq, Repr

/-- The `Model` struct of main.go lines 37-68, restricted to the fields the
controller reads or writes (styling, spinner animation and window size are
pure rendering concerns). The field `tables` is declared in the source but
never assigned. -/
structure Session where
  state : State
  userList : ListW
  databaseList : ListW
  passwordInput : TextInput
  tableList : ListW
  conn : Option Nat
  selectedUser : String
  selectedDB : String
  userPassword : String
  dbConn : Option Nat
  tables : List String
  err : Option String
  tableNameInput : TextInput
  tableSchemaInput : TextInput
  tableName : String
  tableSchema : String
  selectedTable : String
  tableData : List Row
  dataTable : DataTable
  tableColumns : List String
  addRowInputs : List TextInput
  currentInputIndex : Int
deriving DecidableEq, Repr

/-- Results of the two synchronous database calls the controller makes
inline (main.go:327 and main.go:600). -/
structure Env where
  connectAsUserSync : String → String → String → Except String Nat
  getTableColumnsSync : Option Nat → String → Except String (List String)

/-- Go slice read `l[i]` with an `int` index: `none` is the out-of-range panic. -/
def getInput (l : List TextInput) (i : Int) : Option TextInput :=
  if i < 0 then none else l.get? i.toNat

/-- Go slice write `l[i] = t` (only used after a successful read at `i`). -/
def setInput (l : List TextInput) (i : Int) (t : TextInput) : List TextInput :=
  if i < 0 then l else l.set i.toNat t

/-- `m.addRowInputs[i].Blur()` at an index already read successfully. -/
def blurAt (l : List TextInput) (i : Int) : List TextInput :=
  match getInput l i with
  | some t => setInput l i { t with focused := false }
  | none => l

/-- `m.addRowInputs[i].Focus()`; `none` is the out-of-range panic. -/
def focusAt (l : List TextInput) (i : Int) : Option (List TextInput) :=
  match getInput l i with
  | some t => some (setInput l i { t with focused := true })
  | none => none

/-- Focus cycling used by the AddRow tab handler (main.go:550):
`(index + 1) % count` in Go int arithmetic (truncated remainder). -/
def advanceFocus (i n : Int) : Int := (i + 1).tmod n

/-- Focus cycling used by the AddRow shift+tab handler (main.go:552):
`(index - 1 + count) % count` in Go int arithmetic. -/
def retreatFocus (i n : Int) : Int := (i - 1 + n).tmod n

/-- The value collection loop of main.go lines 533-536:
`for i, col := range m.tableColumns \x7b values[col] = m.addRowInputs[i].Value() \x7d`;
`none` is the panic when there are more columns than inputs. -/
def collectValues : List String → List TextInput → Option (List (String × String))
  | [], _ => some []
  | _ :: _, [] => none
  | c :: cs, t :: ts => (collectValues cs ts).map (fun r => (c, t.value) :: r)

/-- A fresh focused `textinput.New()` with no char limit
(`initTableCreationInputs` / `initTableSchemaInput`). -/
def freshFocusedInput : TextInput := { value := "", focused := true, charLimit := 0 }

/-- `initAddRowInputs` (main.go:636-649): one input per column, char limit 50,
only the first focused. -/
def mkAddRowInputs (cols : List String) : List TextInput :=
  cols.enum.map (fun p => { value := "", focused := p.1 == 0, charLimit := 50 })

/-- Association-list lookup with the empty string standing in for the
rendering of a missing map key. -/
def lookupD (r : Row) (c : String) : String :=
  match List.lookup c r with
  | some v => v
  | none => ""

/-- `initDataTable` (main.go:594-634). When the cached data is empty the
column list is fetched synchronously; a failure of that fetch records the
error and moves to `StateError`. -/
def initDataTable (env : Env) (m : Session) : Session :=
  if m.tableData.isEmpty then
    match env.getTableColumnsSync m.dbConn m.selectedTable with
    | .error e => { m with err := some e, state := .StateError }
    | .ok cols => { m with dataTable := { cols := cols, rows := [] } }
  else
    let cols := (m.tableData.headD []).map Prod.fst
    { m with dataTable := { cols := cols, rows := m.tableData.map (fun r => cols.map (lookupD r)) } }

/-- `handleGlobalKeys` (main.go:293-299): `true` exactly when the key
stringifies to ctrl+c or q. -/
def handleGlobalKeys (k : Key) : Bool :=
  k.toString == "ctrl+c" || k.toString == "q"

/-- The per-state body of `Model.Update` (main.go:319-575), reached when the
event is not a global quit key. Returns `none` on the Go panic paths
(indexing an empty `addRowInputs`). -/
def updateState (env : Env) (m : Session) (e : Event) : Option (Session × List Cmd) :=
  match m.state with
  | .StateLoading =>
    match e with
    | .msg .postgresFound =>
      let m1 := { m with state := .StateSelectUser }
      match env.connectAsUserSync "postgres" "postgres" "postgres" with
      | .error er => some ({ m1 with err := some er, state := .StateError }, [])
      | .ok c => some ({ m1 with conn := some c }, [Cmd.fetchUsers c])
    | .msg .postgresNotFound =>
      some ({ m with err := some "Postgres is not installed or not running!", state := .StateError }, [])
    | .msg (.errMsg er) => some ({ m with err := some er, state := .StateError }, [])
    | _ => some (m, [])
  | .StateSelectUser =>
    let m1 := { m with userList := m.userList.update e }
    match e with
    | .msg (.users us) =>
      some ({ m1 with userList := m1.userList.setItems us }, [Cmd.fetchDatabases m1.conn])
    | .msg (.databases ds) =>
      some ({ m1 with databaseList := m1.databaseList.setItems ds }, [])
    | .key k =>
      if k.toString == "enter" then
        match m1.userList.selectedItem with
        | some t => some ({ m1 with selectedUser := t, state := .StateSelectDatabase }, [])
        | none => some (m1, [])
      else some (m1, [])
    | .msg (.errMsg er) => some ({ m1 with err := some er, state := .StateError }, [])
    | _ => some (m1, [])
  | .StateSelectDatabase =>
    let m1 := { m with databaseList := m.databaseList.update e }
    match e with
    | .key k =>
      if k.toString == "enter" then
        match m1.databaseList.selectedItem with
        | some d =>
          some ({ m1 with selectedDB := d, state := .StateEnterPassword,
                          passwordInput := { m1.passwordInput with focused := true } }, [])
        | none => some (m1, [])
      else some (m1, [])
    | .msg (.errMsg er) => some ({ m1 with err := some er, state := .StateError }, [])
    | _ => some (m1, [])
  | .StateEnterPassword =>
    let m1 := { m with passwordInput := m.passwordInput.update e }
    match e with
    | .key k =>
      if k.toString == "enter" then
        let pw := m1.passwordInput.value
        some ({ m1 with userPassword := pw,
                        passwordInput := { m1.passwordInput with value := "" },
                        state := .StateConnecting },
              [Cmd.connectAsUser m1.selectedUser pw m1.selectedDB])
      else some (m1, [])
    | .msg (.errMsg er) => some ({ m1 with err := some er, state := .StateError }, [])
    | _ => some (m1, [])
  | .StateConnecting =>
    match e with
    | .msg (.connected c) =>
      some ({ m with dbConn := some c, state := .StateListTables }, [Cmd.fetchTables (some c)])
    | .msg (.errMsg er) => some ({ m with err := some er, state := .StateError }, [])
    | _ => some (m, [])
  | .StateListTables =>
    let m1 := { m with tableList := m.tableList.update e }
    match e with
    | .msg (.tables ts) => some ({ m1 with tableList := m1.tableList.setItems ts }, [])
    | .msg .tableCreated => some ({ m1 with state := .StateListTables }, [Cmd.fetchTables m1.dbConn])
    | .key k =>
      if k.toString == "n" then
        some ({ m1 with tableNameInput := freshFocusedInput, state := .StateCreateTableName }, [])
      else if k.toString == "enter" then
        match m1.tableList.selectedItem with
        | some t =>
          some ({ m1 with selectedTable := t, state := .StateViewTable },
                [Cmd.fetchTableData m1.dbConn t])
        | none => some (m1, [])
      else some (m1, [])
    | .msg (.tableData d) => some (initDataTable env { m1 with tableData := d }, [])
    | .msg (.errMsg er) => some ({ m1 with err := some er, state := .StateError }, [])
    | _ => some (m1, [])
  | .StateCreateTableName =>
    let m1 := { m with tableNameInput := m.tableNameInput.update e }
    match e with
    | .key k =>
      if k.toString == "enter" then
        let name := m1.tableNameInput.value
        if name == "" then
          some ({ m1 with tableName := name, err := some "Table name cannot be empty" }, [])
        else
          some ({ m1 with tableName := name, tableSchemaInput := freshFocusedInput,
                          state := .StateCreateTableSchema }, [])
      else if k.toString == "esc" then some ({ m1 with state := .StateListTables }, [])
      else some (m1, [])
    | .msg (.errMsg er) => some ({ m1 with err := some er }, [])
    | _ => some (m1, [])
  | .StateCreateTableSchema =>
    let m1 := { m with tableSchemaInput := m.tableSchemaInput.update e }
    match e with
    | .key k =>
      if k.toString == "enter" then
        let sch := m1.tableSchemaInput.value
        if sch == "" then
          some ({ m1 with tableSchema := sch, err := some "Table schema cannot be empty" }, [])
        else
          some ({ m1 with tableSchema := sch, state := .StateListTables },
                [Cmd.createTable m1.dbConn m1.tableName sch])
      else if k.toString == "esc" then some ({ m1 with state := .StateListTables }, [])
      else some (m1, [])
    | .msg (.errMsg er) => some ({ m1 with err := some er }, [])
    | .msg .tableCreated =>
      some ({ m1 with state := .StateListTables, err := none }, [Cmd.fetchTables m1.dbConn])
    | _ => some (m1, [])
  | .StateViewTable =>
    match e with
    | .key k =>
      if k.toString == "esc" then some ({ m with state := .StateListTables }, [])
      else if k.toString == "a" then
        some (m, [Cmd.fetchTableColumns m.dbConn m.selectedTable])
      else some (m, [])
    | .msg (.tableColumns cols) =>
      some ({ m with tableColumns := cols, addRowInputs := mkAddRowInputs cols,
                     currentInputIndex := 0, state := .StateAddRow }, [])
    | .msg .rowInserted =>
      some ({ m with state := .StateViewTable }, [Cmd.fetchTableData m.dbConn m.selectedTable])
    | .msg (.tableData d) => some (initDataTable env { m with tableData := d }, [])
    | .msg (.errMsg er) => some ({ m with err := some er, state := .StateError }, [])
    | _ => some (m, [])
  | .StateAddRow =>
    match getInput m.addRowInputs m.currentInputIndex with
    | none => none
    | some inp0 =>
      let m1 := { m with addRowInputs := setInput m.addRowInputs m.currentInputIndex (inp0.update e) }
      match e with
      | .key k =>
        if k.toString == "enter" then
          if m1.currentInputIndex < (m1.addRowInputs.length : Int) - 1 then
            let l1 := blurAt m1.addRowInputs m1.currentInputIndex
            let i1 := m1.currentInputIndex + 1
            match focusAt l1 i1 with
            | some l2 => some ({ m1 with addRowInputs := l2, currentInputIndex := i1 }, [])
            | none => none
          else
            match collectValues m1.tableColumns m1.addRowInputs with
            | some vals =>
              some ({ m1 with addRowInputs := [], currentInputIndex := 0, state := .StateViewTable },
                    [Cmd.insertRow m1.dbConn m1.selectedTable vals])
            | none => none
        else if k.toString == "esc" then some ({ m1 with state := .StateViewTable }, [])
        else if k.toString == "tab" || k.toString == "shift+tab" then
          let l1 := blurAt m1.addRowInputs m1.currentInputIndex
          let i1 :=
            if k.toString == "tab" then advanceFocus m1.currentInputIndex (l1.length : Int)
            else retreatFocus m1.currentInputIndex (l1.length : Int)
          match focusAt l1 i1 with
          | some l2 => some ({ m1 with addRowInputs := l2, currentInputIndex := i1 }, [])
          | none => none
        else some (m1, [])
      | .msg (.errMsg er) => some ({ m1 with err := some er, state := .StateError }, [])
      | .msg .rowInserted =>
        some ({ m1 with state := .StateViewTable }, [Cmd.fetchTableData m1.dbConn m1.selectedTable])
      | .msg (.tableData d) => some (initDataTable env { m1 with tableData := d }, [])
      | _ => some (m1, [])
  | .StateError =>
    match e with
    | .key _ => some ({ m with err := none, state := .StateListTables }, [])
    | _ => some (m, [])

/-- `Model.Update` (main.go:301-578): global quit keys are consumed before
any per-state handling; everything else goes to the per-state body. -/
def update (env : Env) (m : Session) (e : Event) : Option (Session × List Cmd) :=
  match e with
  | .key k => if handleGlobalKeys k then some (m, [Cmd.quit]) else updateState env m e
  | .msg _ => updateState env m e

/-- The model produced by `initializeModel` (main.go:134-185). -/
def initialSession : Session :=
  { state := .StateLoading
    userList := { items := [], index := 0 }
    databaseList := { items := [], index := 0 }
    passwordInput := { value := "", focused := false, charLimit := 0 }
    tableList := { items := [], index := 0 }
    conn := none
    selectedUser := ""
    selectedDB := ""
    userPassword := ""
    dbConn := none
    tables := []
    err := none
    tableNameInput := { value := "", focused := false, charLimit := 0 }
    tableSchemaInput := { value := "", focused := false, charLimit := 0 }
    tableName := ""
    tableSchema := ""
    selectedTable := ""
    tableData := []
    dataTable := { cols := [], rows := [] }
    tableColumns := []
    addRowInputs := []
    currentInputIndex := 0 }

/-- Running a list of events through `update`, threading the session;
`none` as soon as one step panics. -/
def runEvents (env : Env) (m : Session) : List Event → Option Session
  | [] => some m
  | e :: es =>
    match update env m e with
    | none => none
    | some (m1, _) => runEvents env m1 es

/-- A concrete environment for the scenario theorems: the bootstrap connect
yields handle 1, the synchronous column fetch yields one column. -/
def env0 : Env :=
  { connectAsUserSync := fun _ _ _ => .ok 1
    getTableColumnsSync := fun _ _ => .ok ["c"] }

/-- A concrete session sitting on the ViewTable screen. -/
def viewTableSession : Session :=
  { initialSession with state := .StateViewTable, dbConn := some 2, selectedTable := "t" }

/-- The AddRow scenario of the spec: two columns, both values already typed,
focus on the first field. -/
def addRowScenario (c0 c1 : String) : Session :=
  { initialSession with
      state := .StateAddRow
      dbConn := some 2
      selectedTable := "t"
      tableColumns := [c0, c1]
      addRowInputs := [{ value := "Alice", focused := true, charLimit := 50 },
                       { value := "30", focused := false, charLimit := 50 }]
      currentInputIndex := 0 }

/-- The AddRow scenario after the first enter: focus moved to the second field. -/
def addRowScenarioMid (c0 c1 : String) : Session :=
  { addRowScenario c0 c1 with
      addRowInputs := [{ value := "Alice", focused := false, charLimit := 50 },
                       { value := "30", focused := true, charLimit := 50 }]
      currentInputIndex := 1 }

/-- An event whose payload is well-formed for the table list: a Tables
message carries only non-empty names; every other event is unconstrained. -/
def goodEvent : Event → Prop
  | .msg (.tables ts) => ∀ t ∈ ts, t ≠ ""
  | _ => True

/-- The state/screen-field consistency that actually holds along every
reachable trace (see the amended claim C3). -/
def SessionInv (s : Session) : Prop :=
  (s.state = .StateAddRow → s.addRowInputs.length = s.tableColumns.length) ∧
  (s.addRowInputs ≠ [] →
    0 ≤ s.currentInputIndex ∧ s.currentInputIndex.toNat < s.addRowInputs.length) ∧
  (∀ t ∈ s.tableList.items, t ≠ "") ∧
  ((s.state = .StateViewTable ∨ s.state = .StateAddRow) → s.selectedTable ≠ "")

/-- Recognizer for deferred Connect commands. -/
def isConnectCmd : Cmd → Bool
  | .connectAsUser _ _ _ => true
  | _ => false

/-- A concrete session sitting on the CreateTableName screen. -/
def createTableNameSession : Session :=
  { initialSession with state := .StateCreateTableName, dbConn := some 2 }

/-- A concrete session sitting on the Error screen with a recorded error. -/
def errorSession : Session :=
  { initialSession with state := .StateError, err := some "x" }

/-- The events of a complete login trace entering the password letter s. -/
def loginTrace : List Event :=
  [.msg .postgresFound,
   .msg (.users ["u"]),
   .msg (.databases ["d"]),
   .key .enter,
   .key .enter,
   .key (.char 's'),
   .key .enter,
   .msg (.connected 2)]

/-- A concrete session on the EnterPassword screen with the password s typed. -/
def enterPasswordSession : Session :=
  { initialSession with
      state := .StateEnterPassword
      passwordInput := { value := "s", focused := true, charLimit := 0 } }

/-- A complete trace that reaches AddRow (two columns received) and then
receives a Failed message there. -/
def addRowFailTrace : List Event :=
  [.msg .postgresFound,
   .msg (.users ["u"]),
   .msg (.databases ["d"]),
   .key .enter,
   .key .enter,
   .key .enter,
   .msg (.connected 2),
   .msg (.tables ["t"]),
   .key .enter,
   .msg (.tableColumns ["c1", "c2"]),
   .msg (.errMsg "boom")]

/-- The message kinds of the section 4.1 transition table, named as the spec
names them. -/
inductive MsgType where
  | serviceAvailable
  | serviceUnavailable
  | users
  | databases
  | connected
  | tables
  | tableCreated
  | tableData
  | tableColumns
  | rowInserted
  | failed
deriving DecidableEq, Repr

/-- The spec-level kind of each concrete message. -/
def Msg.tag : Msg → MsgType
  | .postgresFound => .serviceAvailable
  | .postgresNotFound => .serviceUnavailable
  | .users _ => .users
  | .databases _ => .databases
  | .connected _ => .connected
  | .tables _ => .tables
  | .tableCreated => .tableCreated
  | .tableData _ => .tableData
  | .tableColumns _ => .tableColumns
  | .rowInserted => .rowInserted
  | .errMsg _ => .failed

/-- Modelled from the spec: the accepted-message entries of the section 4.1
transition table (message rows only; Failed is listed for every state by
the any-state row). -/
def acceptedBySpec : State → MsgType → Bool
  | _, .failed => true
  | .StateLoading, .serviceAvailable => true
  | .StateLoading, .serviceUnavailable => true
  | .StateSelectUser, .users => true
  | .StateSelectUser, .databases => true
  | .StateConnecting, .connected => true
  | .StateListTables, .tables => true
  | .StateListTables, .tableCreated => true
  | .StateViewTable, .tableData => true
  | .StateViewTable, .tableColumns => true
  | .StateAddRow, .rowInserted => true
  | _, _ => false

/-- The three state/message pairs at which the code handles a message that
the section 4.1 table does not list for that state and changes session
fields while doing so. -/
def frameExempt : State → MsgType → Bool
  | .StateListTables, .tableData => true
  | .StateAddRow, .tableData => true
  | .StateCreateTableSchema, .tableCreated => true
  | _, _ => false

/-- A concrete session sitting on the CreateTableSchema screen with a
recorded validation error. -/
def createTableSchemaSession : Session :=
  { initialSession with state := .StateCreateTableSchema, dbConn := some 2, err := some "v" }


/- ### Helper lemmas about the widget and slice model -/

theorem textInput_update_msg (t : TextInput) (mm : Msg) : t.update (.msg mm) = t := rfl

theorem listW_update_msg (l : ListW) (mm : Msg) : l.update (.msg mm) = l := rfl

theorem List.set_self_of_get? {α : Type} {l : List α} {n : Nat} {a : α}
    (h : l.get? n = some a) : l.set n a = l := by
  induction l generalizing n with
  | nil => simp [List.get?] at h
  | cons x xs ih =>
    cases n with
    | zero => simp [List.get?] at h; simp [List.set, h]
    | succ k => simp only [List.get?] at h; simp [List.set, ih h]

theorem getInput_some_bounds {l : List TextInput} {i : Int} {t : TextInput}
    (h : getInput l i = some t) : 0 ≤ i ∧ i.toNat < l.length := by
  unfold getInput at h
  split at h
  · exact absurd h (by simp)
  · rename_i hn
    refine ⟨by omega, ?_⟩
    rcases List.get?_eq_some.mp h with ⟨hb, _⟩
    exact hb

theorem setInput_self {l : List TextInput} {i : Int} {t : TextInput}
    (h : getInput l i = some t) : setInput l i t = l := by
  unfold getInput at h
  unfold setInput
  split at h
  · exact absurd h (by simp)
  · rename_i hn
    rw [if_neg hn]
    exact List.set_self_of_get? h

theorem setInput_length (l : List TextInput) (i : Int) (t : TextInput) :
    (setInput l i t).length = l.length := by
  unfold setInput
  split
  · rfl
  · exact List.length_set l i.toNat t

theorem blurAt_length (l : List TextInput) (i : Int) : (blurAt l i).length = l.length := by
  unfold blurAt
  split
  · exact setInput_length l i _
  · rfl

theorem focusAt_length {l : List TextInput} {i : Int} {l2 : List TextInput}
    (h : focusAt l i = some l2) :
    l2.length = l.length ∧ 0 ≤ i ∧ i.toNat < l.length := by
  unfold focusAt at h
  split at h
  · rename_i t ht
    obtain ⟨hb1, hb2⟩ := getInput_some_bounds ht
    simp only [Option.some.injEq] at h
    subst h
    exact ⟨setInput_length l i _, hb1, hb2⟩
  · exact absurd h (by simp)

theorem mkAddRowInputs_length (cols : List String) :
    (mkAddRowInputs cols).length = cols.length := by
  simp [mkAddRowInputs]

theorem ListW.update_items (l : ListW) (e : Event) : (ListW.update l e).items = l.items := by
  cases e with
  | key k => cases k <;> rfl
  | msg _ => rfl

theorem initDataTable_addRowInputs (env : Env) (m : Session) :
    (initDataTable env m).addRowInputs = m.addRowInputs := by
  unfold initDataTable
  split
  · split <;> rfl
  · rfl

theorem initDataTable_tableColumns (env : Env) (m : Session) :
    (initDataTable env m).tableColumns = m.tableColumns := by
  unfold initDataTable
  split
  · split <;> rfl
  · rfl

theorem initDataTable_currentInputIndex (env : Env) (m : Session) :
    (initDataTable env m).currentInputIndex = m.currentInputIndex := by
  unfold initDataTable
  split
  · split <;> rfl
  · rfl

theorem initDataTable_tableList (env : Env) (m : Session) :
    (initDataTable env m).tableList = m.tableList := by
  unfold initDataTable
  split
  · split <;> rfl
  · rfl

theorem initDataTable_selectedTable (env : Env) (m : Session) :
    (initDataTable env m).selectedTable = m.selectedTable := by
  unfold initDataTable
  split
  · split <;> rfl
  · rfl

theorem initDataTable_state_or (env : Env) (m : Session) :
    (initDataTable env m).state = m.state ∨ (initDataTable env m).state = .StateError := by
  unfold initDataTable
  split
  · split
    · exact Or.inr rfl
    · exact Or.inl rfl
  · exact Or.inl rfl

theorem ListW.selectedItem_mem {l : ListW} {t : String} (h : l.selectedItem = some t) :
    t ∈ l.items :=
  List.get?_mem h

/-- Step preservation: whenever the controller is in AddRow, the number of
row inputs equals the number of known table columns. -/
theorem step_addRow_len (env : Env) {s s1 : Session} {cs : List Cmd} {e : Event}
    (h : update env s e = some (s1, cs))
    (hA : s.state = .StateAddRow → s.addRowInputs.length = s.tableColumns.length) :
    s1.state = .StateAddRow → s1.addRowInputs.length = s1.tableColumns.length := by
  rcases s with ⟨st, ul, dl, pi0, tl, c, su, sd, up, dc, tb, e0, tni, tsi, tn, ts0, sel, td, dt, tc, ari, cii⟩
  cases e with
  | key k =>
    simp only [update] at h
    by_cases hq : handleGlobalKeys k = true
    · rw [if_pos hq] at h
      simp only [Option.some.injEq, Prod.mk.injEq] at h
      obtain ⟨h1, -⟩ := h
      subst h1
      exact hA
    · rw [if_neg hq] at h
      cases st <;> simp only [updateState] at h <;> (repeat' split at h) <;>
        first
          | (simp only [Option.some.injEq, Prod.mk.injEq] at h
             obtain ⟨h1, -⟩ := h
             subst h1
             intro hx
             exact State.noConfusion hx)
          | (simp only [Option.some.injEq, Prod.mk.injEq] at h
             obtain ⟨h1, -⟩ := h
             subst h1
             intro _
             simp only [setInput_length]
             exact hA rfl)
          | (rename focusAt _ _ = some _ => heq
             simp only [Option.some.injEq, Prod.mk.injEq] at h
             obtain ⟨h1, -⟩ := h
             subst h1
             intro _
             obtain ⟨hl, -, -⟩ := focusAt_length heq
             simp only [hl, blurAt_length, setInput_length]
             exact hA rfl)
          | (simp only [Option.some.injEq, Prod.mk.injEq] at h
             obtain ⟨h1, -⟩ := h
             subst h1
             intro _
             exact mkAddRowInputs_length _)
          | simp at h
  | msg mm =>
    simp only [update] at h
    cases st <;> cases mm <;> simp only [updateState] at h <;> (repeat' split at h) <;>
      first
        | (simp only [Option.some.injEq, Prod.mk.injEq] at h
           obtain ⟨h1, -⟩ := h
           subst h1
           intro hx
           exact State.noConfusion hx)
        | (simp only [Option.some.injEq, Prod.mk.injEq] at h
           obtain ⟨h1, -⟩ := h
           subst h1
           intro _
           simp only [setInput_length]
           exact hA rfl)
        | (simp only [Option.some.injEq, Prod.mk.injEq] at h
           obtain ⟨h1, -⟩ := h
           subst h1
           intro _
           exact mkAddRowInputs_length _)
        | (simp only [Option.some.injEq, Prod.mk.injEq] at h
           obtain ⟨h1, -⟩ := h
           subst h1
           intro hx
           rcases initDataTable_state_or env _ with hst | hst <;> rw [hst] at hx <;>
             exact State.noConfusion hx)
        | (simp only [Option.some.injEq, Prod.mk.injEq] at h
           obtain ⟨h1, -⟩ := h
           subst h1
           intro _
           rw [initDataTable_addRowInputs, initDataTable_tableColumns]
           simp only [setInput_length]
           exact hA rfl)
        | simp at h

/-- Step preservation: while the row inputs are non-empty the focus index is
in bounds. -/
theorem step_index_bounds (env : Env) {s s1 : Session} {cs : List Cmd} {e : Event}
    (h : update env s e = some (s1, cs))
    (hB : s.addRowInputs ≠ [] →
      0 ≤ s.currentInputIndex ∧ s.currentInputIndex.toNat < s.addRowInputs.length) :
    s1.addRowInputs ≠ [] →
      0 ≤ s1.currentInputIndex ∧ s1.currentInputIndex.toNat < s1.addRowInputs.length := by
  rcases s with ⟨st, ul, dl, pi0, tl, c, su, sd, up, dc, tb, e0, tni, tsi, tn, ts0, sel, td, dt, tc, ari, cii⟩
  cases e with
  | key k =>
    simp only [update] at h
    by_cases hq : handleGlobalKeys k = true
    · rw [if_pos hq] at h
      simp only [Option.some.injEq, Prod.mk.injEq] at h
      obtain ⟨h1, -⟩ := h
      subst h1
      exact hB
    · rw [if_neg hq] at h
      cases st <;> simp only [updateState] at h <;> (repeat' split at h) <;>
        first
          | (simp only [Option.some.injEq, Prod.mk.injEq] at h
             obtain ⟨h1, -⟩ := h
             subst h1
             exact hB)
          | (simp only [Option.some.injEq, Prod.mk.injEq] at h
             obtain ⟨h1, -⟩ := h
             subst h1
             intro hne
             exact absurd rfl hne)
          | (simp only [Option.some.injEq, Prod.mk.injEq] at h
             obtain ⟨h1, -⟩ := h
             subst h1
             intro hne
             have hpos := List.length_pos.mpr hne
             rw [setInput_length] at hpos
             obtain ⟨b1, b2⟩ := hB (List.length_pos.mp hpos)
             refine ⟨b1, ?_⟩
             simp only [setInput_length]
             exact b2)
          | (rename focusAt _ _ = some _ => heq
             first
               | (rename (_ == "tab") = true => hdir
                  rw [if_pos hdir] at heq)
               | (rename ¬((_ == "tab") = true) => hdir
                  rw [if_neg hdir] at heq)
               | skip
             simp only [Option.some.injEq, Prod.mk.injEq] at h
             obtain ⟨h1, -⟩ := h
             subst h1
             obtain ⟨hl, hb1, hb2⟩ := focusAt_length heq
             intro _
             refine ⟨hb1, ?_⟩
             simp only [hl]
             exact hb2)
          | simp at h
  | msg mm =>
    simp only [update] at h
    cases st <;> cases mm <;> simp only [updateState] at h <;> (repeat' split at h) <;>
      first
        | (simp only [Option.some.injEq, Prod.mk.injEq] at h
           obtain ⟨h1, -⟩ := h
           subst h1
           exact hB)
        | (simp only [Option.some.injEq, Prod.mk.injEq] at h
           obtain ⟨h1, -⟩ := h
           subst h1
           intro hne
           have hpos := List.length_pos.mpr hne
           rw [setInput_length] at hpos
           obtain ⟨b1, b2⟩ := hB (List.length_pos.mp hpos)
           refine ⟨b1, ?_⟩
           simp only [setInput_length]
           exact b2)
        | (simp only [Option.some.injEq, Prod.mk.injEq] at h
           obtain ⟨h1, -⟩ := h
           subst h1
           intro hne
           exact ⟨le_refl 0, List.length_pos.mpr hne⟩)
        | (simp only [Option.some.injEq, Prod.mk.injEq] at h
           obtain ⟨h1, -⟩ := h
           subst h1
           simp only [initDataTable_addRowInputs, initDataTable_currentInputIndex]
           exact hB)
        | (simp only [Option.some.injEq, Prod.mk.injEq] at h
           obtain ⟨h1, -⟩ := h
           subst h1
           simp only [initDataTable_addRowInputs, initDataTable_currentInputIndex]
           intro hne
           have hpos := List.length_pos.mpr hne
           rw [setInput_length] at hpos
           obtain ⟨b1, b2⟩ := hB (List.length_pos.mp hpos)
           refine ⟨b1, ?_⟩
           simp only [setInput_length]
           exact b2)
        | simp at h

/-- Step preservation: every cached table-list entry is a non-empty name,
provided incoming Tables messages carry only non-empty names. -/
theorem step_table_items (env : Env) {s s1 : Session} {cs : List Cmd} {e : Event}
    (hg : goodEvent e) (h : update env s e = some (s1, cs))
    (hC : ∀ t ∈ s.tableList.items, t ≠ "") :
    ∀ t ∈ s1.tableList.items, t ≠ "" := by
  rcases s with ⟨st, ul, dl, pi0, tl, c, su, sd, up, dc, tb, e0, tni, tsi, tn, ts0, sel, td, dt, tc, ari, cii⟩
  cases e with
  | key k =>
    simp only [update] at h
    by_cases hq : handleGlobalKeys k = true
    · rw [if_pos hq] at h
      simp only [Option.some.injEq, Prod.mk.injEq] at h
      obtain ⟨h1, -⟩ := h
      subst h1
      exact hC
    · rw [if_neg hq] at h
      cases st <;> simp only [updateState] at h <;> (repeat' split at h) <;>
        first
          | (simp only [Option.some.injEq, Prod.mk.injEq] at h
             obtain ⟨h1, -⟩ := h
             subst h1
             exact hC)
          | (simp only [Option.some.injEq, Prod.mk.injEq] at h
             obtain ⟨h1, -⟩ := h
             subst h1
             simp only [initDataTable_tableList, ListW.update_items]
             exact hC)
          | simp at h
  | msg mm =>
    simp only [update] at h
    cases st <;> cases mm <;> simp only [updateState] at h <;> (repeat' split at h) <;>
      first
        | (simp only [Option.some.injEq, Prod.mk.injEq] at h
           obtain ⟨h1, -⟩ := h
           subst h1
           exact hC)
        | (simp only [Option.some.injEq, Prod.mk.injEq] at h
           obtain ⟨h1, -⟩ := h
           subst h1
           simp only [initDataTable_tableList, ListW.update_items]
           exact hC)
        | (simp only [Option.some.injEq, Prod.mk.injEq] at h
           obtain ⟨h1, -⟩ := h
           subst h1
           exact hg)
        | simp at h

/-- Step preservation: on the ViewTable and AddRow screens the selected
table name is non-empty, provided incoming Tables messages carry only
non-empty names. -/
theorem step_selected_table (env : Env) {s s1 : Session} {cs : List Cmd} {e : Event}
    (h : update env s e = some (s1, cs))
    (hC : ∀ t ∈ s.tableList.items, t ≠ "")
    (hD : (s.state = .StateViewTable ∨ s.state = .StateAddRow) → s.selectedTable ≠ "") :
    (s1.state = .StateViewTable ∨ s1.state = .StateAddRow) → s1.selectedTable ≠ "" := by
  rcases s with ⟨st, ul, dl, pi0, tl, c, su, sd, up, dc, tb, e0, tni, tsi, tn, ts0, sel, td, dt, tc, ari, cii⟩
  cases e with
  | key k =>
    simp only [update] at h
    by_cases hq : handleGlobalKeys k = true
    · rw [if_pos hq] at h
      simp only [Option.some.injEq, Prod.mk.injEq] at h
      obtain ⟨h1, -⟩ := h
      subst h1
      exact hD
    · rw [if_neg hq] at h
      cases st <;> simp only [updateState] at h <;> (repeat' split at h) <;>
        first
          | (simp only [Option.some.injEq, Prod.mk.injEq] at h
             obtain ⟨h1, -⟩ := h
             subst h1
             intro hx
             rcases hx with hx | hx <;> exact State.noConfusion hx)
          | (simp only [Option.some.injEq, Prod.mk.injEq] at h
             obtain ⟨h1, -⟩ := h
             subst h1
             exact fun _ => hD (Or.inl rfl))
          | (simp only [Option.some.injEq, Prod.mk.injEq] at h
             obtain ⟨h1, -⟩ := h
             subst h1
             exact fun _ => hD (Or.inr rfl))
          | (rename ListW.selectedItem _ = some _ => heq
             simp only [Option.some.injEq, Prod.mk.injEq] at h
             obtain ⟨h1, -⟩ := h
             subst h1
             intro _
             have hmem := ListW.selectedItem_mem heq
             rw [ListW.update_items] at hmem
             exact hC _ hmem)
          | simp at h
  | msg mm =>
    simp only [update] at h
    cases st <;> cases mm <;> simp only [updateState] at h <;> (repeat' split at h) <;>
      first
        | (simp only [Option.some.injEq, Prod.mk.injEq] at h
           obtain ⟨h1, -⟩ := h
           subst h1
           intro hx
           rcases hx with hx | hx <;> exact State.noConfusion hx)
        | (simp only [Option.some.injEq, Prod.mk.injEq] at h
           obtain ⟨h1, -⟩ := h
           subst h1
           exact fun _ => hD (Or.inl rfl))
        | (simp only [Option.some.injEq, Prod.mk.injEq] at h
           obtain ⟨h1, -⟩ := h
           subst h1
           exact fun _ => hD (Or.inr rfl))
        | (simp only [Option.some.injEq, Prod.mk.injEq] at h
           obtain ⟨h1, -⟩ := h
           subst h1
           intro hx
           rcases initDataTable_state_or env _ with hst | hst <;> rw [hst] at hx <;>
             rcases hx with hx | hx <;> exact State.noConfusion hx)
        | (simp only [Option.some.injEq, Prod.mk.injEq] at h
           obtain ⟨h1, -⟩ := h
           subst h1
           intro _
           simp only [initDataTable_selectedTable]
           exact hD (Or.inl rfl))
        | (simp only [Option.some.injEq, Prod.mk.injEq] at h
           obtain ⟨h1, -⟩ := h
           subst h1
           intro _
           simp only [initDataTable_selectedTable]
           exact hD (Or.inr rfl))
        | simp at h

/-- The invariant `SessionInv` is preserved by every non-panicking step on a
well-formed event. -/
theorem sessionInv_step (env : Env) {s s1 : Session} {cs : List Cmd} {e : Event}
    (hg : goodEvent e) (h : update env s e = some (s1, cs)) (hi : SessionInv s) :
    SessionInv s1 := by
  obtain ⟨h1, h2, h3, h4⟩ := hi
  exact ⟨step_addRow_len env h h1, step_index_bounds env h h2,
         step_table_items env hg h h3, step_selected_table env h h3 h4⟩

/-- The invariant `SessionInv` holds after running any list of well-formed
events from an invariant-satisfying session. -/
theorem sessionInv_run (env : Env) (evs : List Event) :
    ∀ s0 s, (∀ e ∈ evs, goodEvent e) → SessionInv s0 →
      runEvents env s0 evs = some s → SessionInv s := by
  induction evs with
  | nil =>
    intro s0 s _ hi h
    simp only [runEvents, Option.some.injEq] at h
    subst h
    exact hi
  | cons e es ih =>
    intro s0 s hg hi h
    simp only [runEvents] at h
    split at h
    · exact absurd h (by simp)
    · rename_i m1 cs1 heq
      exact ih m1 s (fun x hx => hg x (List.mem_cons_of_mem e hx))
        (sessionInv_step env (hg e (List.mem_cons_self e es)) heq hi) h

/- ### Claim theorems -/

/-- C9: focus cycling is modular arithmetic with wrap-around: for every
count > 0 and index in [0, count), advanceFocus returns (index+1) mod count
and retreatFocus returns (index-1+count) mod count; for count = 4 starting
at index 0, four consecutive advances return to 0, and one retreat from 0
returns 3. -/
theorem focus_cycling_modular (i n : Int) (hn : 0 < n) (hi : 0 ≤ i) (_hin : i < n) :
    advanceFocus i n = (i + 1) % n ∧
    retreatFocus i n = (i - 1 + n) % n ∧
    advanceFocus (advanceFocus (advanceFocus (advanceFocus 0 4) 4) 4) 4 = 0 ∧
    retreatFocus 0 4 = 3 := by
  refine ⟨?_, ?_, by decide, by decide⟩
  · exact Int.tmod_eq_emod (by omega) (by omega)
  · exact Int.tmod_eq_emod (by omega) (by omega)

theorem focus_cycling_modular_witness :
    advanceFocus 0 4 = (0 + 1) % 4 ∧
    retreatFocus 0 4 = (0 - 1 + 4) % 4 ∧
    advanceFocus (advanceFocus (advanceFocus (advanceFocus 0 4) 4) 4) 4 = 0 ∧
    retreatFocus 0 4 = 3 :=
  focus_cycling_modular 0 4 (by decide) (by decide) (by decide)

/-- C10: in every state and for every environment, a key event for q or
ctrl+c is consumed by the global key handler: the update returns the session
completely unchanged together with the single quit command, so the per-state
handling never runs and in particular the character q is never inserted into
any focused text input. -/
theorem global_quit_keys (env : Env) (s : Session) :
    update env s (.key (.char 'q')) = some (s, [Cmd.quit]) ∧
    update env s (.key .ctrlC) = some (s, [Cmd.quit]) := by
  constructor <;> rfl

/-- C8: in AddRow with two input fields holding Alice and 30 and focus on
field 0, pressing enter twice issues exactly one InsertRow command pairing
the first column with Alice and the second with 30, and leaves addRowInputs
cleared (the first enter only moves focus and issues nothing). -/
theorem addrow_two_enters_insert (env : Env) (c0 c1 : String) :
    update env (addRowScenario c0 c1) (.key .enter) = some (addRowScenarioMid c0 c1, []) ∧
    update env (addRowScenarioMid c0 c1) (.key .enter) =
      some ({ addRowScenario c0 c1 with
                addRowInputs := [], currentInputIndex := 0, state := .StateViewTable },
            [Cmd.insertRow (some 2) "t" [(c0, "Alice"), (c1, "30")]]) := by
  constructor <;> rfl

/-- C5 (evaluation at the failing input): a tableColumns message carrying an
empty column list, received in ViewTable, is not guarded against: the
controller enters AddRow with zero row inputs, and the very next event in
AddRow indexes addRowInputs out of range (the Go runtime panic, `none` in
this embedding). -/
theorem addrow_empty_columns_panics :
    update env0 viewTableSession (.msg (.tableColumns [])) =
      some ({ viewTableSession with
                tableColumns := [], addRowInputs := [], currentInputIndex := 0,
                state := .StateAddRow }, []) ∧
    update env0 ({ viewTableSession with
                     tableColumns := [], addRowInputs := [], currentInputIndex := 0,
                     state := .StateAddRow }) (.key .esc) = none := by
  constructor <;> rfl

/-- C1 counterexample: injecting ServiceAvailable in Loading (with the
bootstrap connect succeeding with handle 1) moves to SelectUser, but the
connection has already been made synchronously (the handle is stored in the
resulting session) and the single deferred command is a FetchUsers command:
no Connect command at all is issued, refuting that exactly one deferred
Connect command performs the connection. -/
theorem loading_service_available_no_connect_cmd :
    update env0 initialSession (.msg .postgresFound) =
      some ({ initialSession with state := .StateSelectUser, conn := some 1 },
            [Cmd.fetchUsers 1]) ∧
    (List.filter isConnectCmd [Cmd.fetchUsers 1]).length = 0 := by
  exact ⟨rfl, rfl⟩

/-- C1 amended: in Loading, ServiceAvailable makes the controller connect
with the bootstrap credentials synchronously inside the transition. On
success the state becomes SelectUser, the handle is stored, and exactly one
deferred FetchUsers command is issued; on failure the error is recorded and
the state becomes Error with no command issued. -/
theorem loading_service_available_sync_connect (env : Env) (s : Session)
    (hs : s.state = .StateLoading) :
    (∀ h, env.connectAsUserSync "postgres" "postgres" "postgres" = .ok h →
      update env s (.msg .postgresFound) =
        some ({ s with state := .StateSelectUser, conn := some h }, [Cmd.fetchUsers h])) ∧
    (∀ er, env.connectAsUserSync "postgres" "postgres" "postgres" = .error er →
      update env s (.msg .postgresFound) =
        some ({ s with state := .StateError, err := some er }, [])) := by
  rcases s with ⟨st, ul, dl, pi, tl, c, su, sd, up, dc, tb, e0, tni, tsi, tn, ts0, sel, td, dt, tc, ari, cii⟩
  cases hs
  constructor
  · intro h hok
    simp only [update, updateState, hok]
  · intro er herr
    simp only [update, updateState, herr]

theorem loading_service_available_sync_connect_witness :
    update env0 initialSession (.msg .postgresFound) =
      some ({ initialSession with state := .StateSelectUser, conn := some 1 },
            [Cmd.fetchUsers 1]) :=
  (loading_service_available_sync_connect env0 initialSession rfl).1 1 rfl

/-- C2 counterexample: a Failed message delivered in CreateTableName records
the error but leaves the state at CreateTableName instead of moving to
Error. -/
theorem failed_in_create_table_name_stays :
    (update env0 createTableNameSession (.msg (.errMsg "x"))).map
        (fun r => (r.1.state, r.1.err)) =
      some (.StateCreateTableName, some "x") ∧
    State.StateCreateTableName ≠ State.StateError := by
  exact ⟨rfl, by decide⟩

/-- C2 amended: a Failed(error) message transitions to Error and records the
error in every state except three: in CreateTableName and CreateTableSchema
it records the error but stays on the same screen, and in the Error state it
is ignored entirely (the previously recorded error is kept). -/
theorem failed_message_routing (env : Env) (s : Session) (er : String) :
    (s.state ≠ .StateCreateTableName → s.state ≠ .StateCreateTableSchema →
      s.state ≠ .StateError →
      (s.state = .StateAddRow → (getInput s.addRowInputs s.currentInputIndex).isSome = true) →
      update env s (.msg (.errMsg er)) =
        some ({ s with err := some er, state := .StateError }, [])) ∧
    (s.state = .StateCreateTableName →
      update env s (.msg (.errMsg er)) = some ({ s with err := some er }, [])) ∧
    (s.state = .StateCreateTableSchema →
      update env s (.msg (.errMsg er)) = some ({ s with err := some er }, [])) ∧
    (s.state = .StateError →
      update env s (.msg (.errMsg er)) = some (s, [])) := by
  rcases s with ⟨st, ul, dl, pi, tl, c, su, sd, up, dc, tb, e0, tni, tsi, tn, ts0, sel, td, dt, tc, ari, cii⟩
  cases st
  case StateCreateTableName =>
    refine ⟨fun h => absurd rfl h, fun _ => rfl, ?_, ?_⟩ <;> (intro h; exact nomatch h)
  case StateCreateTableSchema =>
    refine ⟨fun _ h => absurd rfl h, ?_, fun _ => rfl, ?_⟩ <;> (intro h; exact nomatch h)
  case StateError =>
    refine ⟨fun _ _ h => absurd rfl h, ?_, ?_, fun _ => rfl⟩ <;> (intro h; exact nomatch h)
  case StateAddRow =>
    refine ⟨?_, ?_, ?_, ?_⟩
    case' _ => intro _ _ _ hb
               obtain ⟨inp, hinp⟩ := Option.isSome_iff_exists.mp (hb rfl)
               simp only [update, updateState, hinp, textInput_update_msg, setInput_self hinp]
    all_goals (intro h; exact nomatch h)
  all_goals
    refine ⟨fun _ _ _ _ => rfl, ?_, ?_, ?_⟩ <;> (intro h; exact nomatch h)

theorem failed_message_routing_witness :
    update env0 { initialSession with state := .StateConnecting } (.msg (.errMsg "x")) =
      some ({ initialSession with state := .StateError, err := some "x" }, []) :=
  (failed_message_routing env0 { initialSession with state := .StateConnecting } "x").1
    (by decide) (by decide) (by decide) (by decide)

/-- C6 counterexample: in the Error state with a recorded error, the key q
does not clear the error and does not move to ListTables: it is consumed by
the global quit handler, leaving the session unchanged. -/
theorem error_state_quit_key_keeps_error :
    update env0 errorSession (.key (.char 'q')) = some (errorSession, [Cmd.quit]) ∧
    errorSession.state = .StateError ∧ errorSession.err = some "x" := by
  exact ⟨rfl, rfl, rfl⟩

/-- C6 amended: in the Error state, every key press except the global quit
keys (q and ctrl+c) clears the recorded error and transitions to ListTables,
regardless of which state the error originated from; the quit keys instead
exit the program leaving the session, error included, unchanged. -/
theorem error_state_key_recovery (env : Env) (s : Session) (k : Key)
    (hs : s.state = .StateError) :
    (handleGlobalKeys k = false →
      update env s (.key k) = some ({ s with err := none, state := .StateListTables }, [])) ∧
    (handleGlobalKeys k = true → update env s (.key k) = some (s, [Cmd.quit])) := by
  rcases s with ⟨st, ul, dl, pi, tl, c, su, sd, up, dc, tb, e0, tni, tsi, tn, ts0, sel, td, dt, tc, ari, cii⟩
  cases hs
  constructor
  · intro h
    simp only [update, updateState, h, Bool.false_eq_true, if_false]
  · intro h
    simp only [update, h, if_true]

/-- Key identification: among the modelled keys only the enter key
stringifies to the five-letter word enter. -/
theorem key_of_toString_enter {k : Key} (h : k.toString = "enter") : k = Key.enter := by
  cases k
  case enter => rfl
  case char c => exact absurd (show (1 : Nat) = 5 from congrArg String.length h) (by decide)
  all_goals exact absurd h (by decide)

/-- C7 counterexample: after the full login trace the session sits in
ListTables and its userPassword field still holds the entered password s:
the captured password is not cleared after use. -/
theorem password_retained_in_list_tables :
    (runEvents env0 initialSession loginTrace).map (fun s => (s.state, s.userPassword)) =
      some (.StateListTables, "s") ∧ "s" ≠ "" := by
  exact ⟨rfl, by decide⟩

/-- C7 amended: the enter transition of EnterPassword clears the password
text input (its value becomes empty) and issues the Connect command, but it
copies the entered password into the userPassword field of the session, and
no other transition ever writes that field, so every later session retains
the entered password instead of holding an empty one. -/
theorem password_input_cleared_field_retained (env : Env) (s : Session) :
    (s.state = .StateEnterPassword →
      update env s (.key .enter) =
        some ({ s with userPassword := s.passwordInput.value,
                       passwordInput := { s.passwordInput with value := "" },
                       state := .StateConnecting },
              [Cmd.connectAsUser s.selectedUser s.passwordInput.value s.selectedDB])) ∧
    (∀ e s1 cs, update env s e = some (s1, cs) →
      s1.userPassword = s.userPassword ∨
      (s.state = .StateEnterPassword ∧ s1.userPassword = s.passwordInput.value)) := by
  rcases s with ⟨st, ul, dl, pi0, tl, c, su, sd, up, dc, tb, e0, tni, tsi, tn, ts0, sel, td, dt, tc, ari, cii⟩
  constructor
  · intro hs
    cases hs
    rfl
  · intro e s1 cs h
    cases e with
    | key k =>
      simp only [update] at h
      by_cases hq : handleGlobalKeys k = true
      · rw [if_pos hq] at h
        left
        simp only [Option.some.injEq, Prod.mk.injEq] at h
        obtain ⟨h1, -⟩ := h
        subst h1
        rfl
      · rw [if_neg hq] at h
        cases st <;>
          simp only [updateState, initDataTable] at h <;>
          (repeat' split at h) <;>
          first
            | (simp only [Option.some.injEq, Prod.mk.injEq] at h
               obtain ⟨h1, -⟩ := h
               subst h1
               exact Or.inl rfl)
            | (rename_i hcond
               simp only [Option.some.injEq, Prod.mk.injEq] at h
               obtain ⟨h1, -⟩ := h
               subst h1
               have hk := key_of_toString_enter (eq_of_beq hcond)
               cases hk
               exact Or.inr ⟨rfl, rfl⟩)
            | simp at h
    | msg mm =>
      left
      cases st <;> cases mm <;>
        simp only [update, updateState, initDataTable, textInput_update_msg,
                   listW_update_msg, ListW.setItems] at h <;>
        (repeat' split at h) <;>
        first
          | (simp only [Option.some.injEq, Prod.mk.injEq] at h
             obtain ⟨h1, -⟩ := h
             subst h1
             rfl)
          | simp at h

theorem password_input_cleared_field_retained_witness :
    update env0 enterPasswordSession (.key .enter) =
      some ({ enterPasswordSession with
                state := .StateConnecting
                userPassword := "s"
                passwordInput := { value := "", focused := true, charLimit := 0 } },
            [Cmd.connectAsUser "" "s" ""]) :=
  (password_input_cleared_field_retained env0 enterPasswordSession).1 rfl

theorem error_state_key_recovery_witness :
    update env0 errorSession (.key .enter) =
      some ({ errorSession with err := none, state := .StateListTables }, []) :=
  (error_state_key_recovery env0 errorSession .enter rfl).1 rfl

/-- C3 counterexample: a session reachable from the initial session (enter
AddRow with two columns, then receive Failed there) is in the Error state
while addRowInputs still holds its two inputs: addRowInputs non-empty does
not imply that the state is AddRow. -/
theorem addrow_inputs_nonempty_outside_addrow :
    (runEvents env0 initialSession addRowFailTrace).map
        (fun s => (s.state, s.addRowInputs.length)) = some (.StateError, 2) ∧
    State.StateError ≠ State.StateAddRow := by
  exact ⟨rfl, by decide⟩

/-- C3 amended: in every session reachable from the initial session by
events whose Tables payloads contain only non-empty names, (1) in state
AddRow the row inputs match the received column list one for one (so they
are empty exactly when that column list was empty), (2) while the row
inputs are non-empty the focus index is in bounds, and (3) selectedTable is
non-empty in the ViewTable and AddRow states; however addRowInputs may
remain non-empty after leaving AddRow through esc or a Failed message, so
non-emptiness of addRowInputs does not characterise the AddRow state. -/
theorem reachable_screen_field_consistency (env : Env) (evs : List Event) (s : Session)
    (hg : ∀ e ∈ evs, goodEvent e)
    (h : runEvents env initialSession evs = some s) :
    (s.state = .StateAddRow → s.addRowInputs.length = s.tableColumns.length) ∧
    (s.addRowInputs ≠ [] →
      0 ≤ s.currentInputIndex ∧ s.currentInputIndex.toNat < s.addRowInputs.length) ∧
    ((s.state = .StateViewTable ∨ s.state = .StateAddRow) → s.selectedTable ≠ "") := by
  have h0 : SessionInv initialSession :=
    ⟨fun _ => rfl, fun hne => absurd rfl hne, by simp [initialSession],
     fun hx => by rcases hx with hx | hx <;> exact State.noConfusion hx⟩
  have hi := sessionInv_run env evs initialSession s hg h0 h
  exact ⟨hi.1, hi.2.1, hi.2.2.2⟩

theorem reachable_screen_field_consistency_witness :
    (initialSession.state = .StateAddRow →
      initialSession.addRowInputs.length = initialSession.tableColumns.length) ∧
    (initialSession.addRowInputs ≠ [] →
      0 ≤ initialSession.currentInputIndex ∧
      initialSession.currentInputIndex.toNat < initialSession.addRowInputs.length) ∧
    ((initialSession.state = .StateViewTable ∨ initialSession.state = .StateAddRow) →
      initialSession.selectedTable ≠ "") :=
  reachable_screen_field_consistency env0 [] initialSession (by simp) rfl

/-- C4 counterexample: TableCreated is not listed as accepted in
CreateTableSchema, yet delivering it there changes the state field (to
ListTables) and clears the recorded error; the state field is not a
background cache. -/
theorem table_created_in_schema_breaks_frame :
    acceptedBySpec .StateCreateTableSchema Msg.tableCreated.tag = false ∧
    (update env0 createTableSchemaSession (.msg .tableCreated)).map
        (fun r => (r.1.state, r.1.err)) = some (.StateListTables, none) ∧
    createTableSchemaSession.state = .StateCreateTableSchema ∧
    createTableSchemaSession.err = some "v" := by
  exact ⟨rfl, rfl, rfl, rfl⟩

/-- C4 amended: for every state S and message type M not listed as accepted
by S in the section 4.1 table, the update leaves every session field
unchanged, except at three pairs: TableData in ListTables and in AddRow
updates the cached table data and rebuilt display table (and can record an
error), and TableCreated in CreateTableSchema transitions to ListTables and
clears the error. -/
theorem unlisted_message_frame (env : Env) (s : Session) (mm : Msg)
    (hacc : acceptedBySpec s.state mm.tag = false)
    (hex : frameExempt s.state mm.tag = false)
    (hb : s.state = .StateAddRow → (getInput s.addRowInputs s.currentInputIndex).isSome = true) :
    (update env s (.msg mm)).map Prod.fst = some s := by
  rcases s with ⟨st, ul, dl, pi0, tl, c, su, sd, up, dc, tb, e0, tni, tsi, tn, ts0, sel, td, dt, tc, ari, cii⟩
  cases st <;> cases mm <;>
    first
      | (dsimp only [Msg.tag, acceptedBySpec] at hacc
         exact Bool.noConfusion hacc)
      | (dsimp only [Msg.tag, frameExempt] at hex
         exact Bool.noConfusion hex)
      | rfl
      | (obtain ⟨inp, hinp⟩ := Option.isSome_iff_exists.mp (hb rfl)
         simp only [update, updateState, hinp, textInput_update_msg, setInput_self hinp,
                    Option.map_some]
         rfl)

theorem unlisted_message_frame_witness :
    (update env0 viewTableSession (.msg (.users ["u"]))).map Prod.fst =
      some viewTableSession :=
  unlisted_message_frame env0 viewTableSession (.users ["u"]) rfl rfl (by decide)

theorem global_quit_keys_witness :
    update env0 enterPasswordSession (.key (.char 'q')) =
      some (enterPasswordSession, [Cmd.quit]) ∧
    update env0 enterPasswordSession (.key .ctrlC) =
      some (enterPasswordSession, [Cmd.quit]) :=
  global_quit_keys env0 enterPasswordSession

theorem addrow_two_enters_insert_witness :
    update env0 (addRowScenario "col0" "col1") (.key .enter) =
      some (addRowScenarioMid "col0" "col1", []) ∧
    update env0 (addRowScenarioMid "col0" "col1") (.key .enter) =
      some ({ addRowScenario "col0" "col1" with
                addRowInputs := [], currentInputIndex := 0, state := .StateViewTable },
            [Cmd.insertRow (some 2) "t" [("col0", "Alice"), ("col1", "30")]]) :=
  addrow_two_enters_insert env0 "col0" "col1"

end LazySql
